import Mathlib

/-!
Verification of the matcher combinator layer (`crates/core/src/matcher.rs`)
and the CLI error exit codes (`crates/cli/src/error.rs`) of the ast-grep
repository, as a shallow embedding in Lean 4.
-/

/-- The external `Language` collaborator is identified by an opaque id;
the matcher layer only clones and passes it around. -/
abbrev Lang := Nat

/-- A syntax-tree node: kind id, language, ordered children.
Models the external `Node` contract (kind id, children, pre-order dfs). -/
inductive Node : Type where
  | mk (kindId : Nat) (lang : Lang) (children : List Node) : Node

def Node.kindId : Node → Nat
  | .mk k _ _ => k

def Node.lang : Node → Lang
  | .mk _ l _ => l

def Node.children : Node → List Node
  | .mk _ _ cs => cs

mutual

/-- Pre-order depth-first traversal of a node, including the node itself:
models `node.dfs()` (the `Pre` traversal used by `find_node` and
`FindAllNodes`). -/
def Node.dfs : Node → List Node
  | .mk k l cs => .mk k l cs :: dfsList cs

/-- Pre-order traversal of a forest, left to right. -/
def dfsList : List Node → List Node
  | [] => []
  | c :: cs => Node.dfs c ++ dfsList cs

end

/-- Modelled from the spec: the `MetaVarEnv` module is not among the provided
sources; the spec describes it as a mapping from capture name to a single
bound node or an ordered sequence of nodes. The matcher combinator layer
only creates a fresh one and threads it through calls, so any concrete
representation of that mapping suffices. -/
abbrev MetaVarEnv := List (String × List Node)

/-- `MetaVarEnv::new()`: the fresh, empty environment. -/
def MetaVarEnv.new : MetaVarEnv := []

/-- `NodeMatch::new(node, env)`: matched node plus the capture environment
at the moment of success. -/
structure NodeMatch where
  node : Node
  env : MetaVarEnv

/-- The trait-default body of `Matcher::match_node` (matcher.rs lines 45-50):
run `match_node_with_env` on a freshly created environment and wrap a
success into a `NodeMatch`. The `&mut env` parameter of the source is
modelled by returning the (possibly updated) environment alongside the
`Option` result. -/
def defaultMatchNode (mnwe : Node → MetaVarEnv → Option Node × MetaVarEnv)
    (node : Node) : Option NodeMatch :=
  match mnwe node MetaVarEnv.new with
  | (some n, env) => some (NodeMatch.mk n env)
  | (none, _) => none

/-- The trait-default body of `Matcher::find_node` (matcher.rs lines 52-59):
return the first candidate of the pre-order dfs (starting at and including
the argument) on which `match_node` succeeds. -/
def defaultFindNode (mn : Node → Option NodeMatch) (node : Node) : Option NodeMatch :=
  node.dfs.findSome? mn

/-- The `Matcher` trait. `match_node_with_env` is the one required method;
`potential_kinds` and `get_match_len` default to `None`; `match_node` and
`find_node` default to the trait bodies above but are overridable (the two
delegating adapters override them in the source). `BitSet` is modelled as
`Finset Nat`. -/
structure Matcher where
  matchNodeWithEnv : Node → MetaVarEnv → Option Node × MetaVarEnv
  potentialKinds : Option (Finset Nat) := none
  getMatchLen : Node → Option Nat := fun _ => none
  matchNode : Node → Option NodeMatch := defaultMatchNode matchNodeWithEnv
  findNode : Node → Option NodeMatch := defaultFindNode matchNode

/-- Modelled from the spec: the `Pattern` module is not among the provided
sources. `Pattern::new(snippet, lang)` compiles a snippet text in a
`Language` into an immutable skeleton which can then be matched against
nodes, report its possible kinds, and report a match length. We abstract
the whole module as a family of semantic functions indexed by snippet text
and language; every claim about the code in matcher.rs that touches
`Pattern` is pure delegation, so it holds for any such family. -/
structure PatternSem where
  matchNodeWithEnv : String → Lang → Node → MetaVarEnv → Option Node × MetaVarEnv
  potentialKinds : String → Lang → Option (Finset Nat)
  getMatchLen : String → Lang → Node → Option Nat

/-- `Pattern::new(s, l)` viewed as a `Matcher`, for a given semantics `P` of
the external `Pattern` module. -/
def patternMatcher (P : PatternSem) (s : String) (l : Lang) : Matcher where
  matchNodeWithEnv := P.matchNodeWithEnv s l
  potentialKinds := P.potentialKinds s l
  getMatchLen := P.getMatchLen s l

/-- `impl Matcher for str` (matcher.rs lines 62-76): a bare string is a
matcher that compiles itself into a `Pattern` with the candidate node's own
language and delegates `match_node_with_env` and `get_match_len` to that
pattern. `potential_kinds`, `match_node` and `find_node` keep their trait
defaults. -/
def strMatcher (P : PatternSem) (s : String) : Matcher where
  matchNodeWithEnv := fun node env => P.matchNodeWithEnv s node.lang node env
  getMatchLen := fun node => P.getMatchLen s node.lang node

/-- `impl Matcher for &T` (matcher.rs lines 78-106): a borrowed reference to
a matcher is itself a matcher; all five methods delegate to the inner
matcher through one dereference. -/
def refMatcher (M : Matcher) : Matcher where
  matchNodeWithEnv := M.matchNodeWithEnv
  potentialKinds := M.potentialKinds
  getMatchLen := M.getMatchLen
  matchNode := M.matchNode
  findNode := M.findNode

/-- `impl Matcher for Box<dyn Matcher<L>>` (matcher.rs lines 108-133): the
owned type-erased handle is itself a matcher; all five methods delegate to
the boxed inner matcher through one (double) dereference. -/
def boxMatcher (M : Matcher) : Matcher where
  matchNodeWithEnv := M.matchNodeWithEnv
  potentialKinds := M.potentialKinds
  getMatchLen := M.getMatchLen
  matchNode := M.matchNode
  findNode := M.findNode

/-- `FindAllNodes` (matcher.rs lines 135-149): owns one matcher and one
pre-order dfs cursor; the cursor is modelled by the list of candidates it
has yet to produce. -/
structure FindAllNodes where
  dfs : List Node
  matcher : Matcher

/-- `FindAllNodes::new(matcher, node)`: the cursor starts at the full
pre-order traversal of `node`. -/
def FindAllNodes.new (matcher : Matcher) (node : Node) : FindAllNodes :=
  { dfs := node.dfs, matcher := matcher }

/-- The loop body of `FindAllNodes::next` (matcher.rs lines 153-160):
drain candidates from the cursor until the matcher accepts one, yielding
that `NodeMatch` and the remaining cursor, or `none` when the cursor is
exhausted. -/
def nextLoop (m : Matcher) : List Node → Option (NodeMatch × FindAllNodes)
  | [] => none
  | c :: rest =>
    match m.matchNode c with
    | some matched => some (matched, { dfs := rest, matcher := m })
    | none => nextLoop m rest

/-- `<FindAllNodes as Iterator>::next`. -/
def FindAllNodes.next (s : FindAllNodes) : Option (NodeMatch × FindAllNodes) :=
  nextLoop s.matcher s.dfs

/-- `advance k s`: the `NodeMatch` yielded by the `(k+1)`-st call to `next`
when the iterator is repeatedly advanced from state `s`, together with the
state after that call (`none` once the iterator is exhausted). -/
def FindAllNodes.advance : Nat → FindAllNodes → Option (NodeMatch × FindAllNodes)
  | 0, s => s.next
  | k + 1, s => s.next.bind fun p => FindAllNodes.advance k p.2

/-- `MatchAll` (matcher.rs lines 163-177): matches any node, returning the
node itself and touching nothing; `potential_kinds` returns `None` to match
anything. -/
def MatchAll : Matcher where
  matchNodeWithEnv := fun node env => (some node, env)
  potentialKinds := none

/-- `MatchNone` (matcher.rs lines 179-193): matches nothing;
`potential_kinds` returns the empty bit-set. -/
def MatchNone : Matcher where
  matchNodeWithEnv := fun _ env => (none, env)
  potentialKinds := some ∅

/-- Pruning soundness (spec section 4.2): whenever `potential_kinds`
reports a set that excludes a node's kind id, matching that node fails. -/
def PruneSound (M : Matcher) : Prop :=
  ∀ (n : Node) (env : MetaVarEnv) (s : Finset Nat),
    M.potentialKinds = some s → n.kindId ∉ s →
    (M.matchNodeWithEnv n env).1 = none

/-- Rollback on failure (spec sections 4.2 and 7): a failing
`match_node_with_env` leaves the environment exactly as it was. -/
def RollbackOnFailure (M : Matcher) : Prop :=
  ∀ (n : Node) (env : MetaVarEnv),
    (M.matchNodeWithEnv n env).1 = none → (M.matchNodeWithEnv n env).2 = env

/-- `d` is a proper descendant of `t`: it occurs in the pre-order
traversal of one of `t`'s children. -/
def properDescendant (d t : Node) : Prop :=
  d ∈ dfsList t.children

/-- `ErrorContext` (error.rs lines 18-39): the CLI error contexts.
`PathBuf` payloads are modelled as strings, `usize` as `Nat`. -/
inductive ErrorContext where
  | readConfiguration
  | parseConfiguration
  | walkRuleDir (dir : String)
  | readRule (file : String)
  | parseRule (file : String)
  | parseTest (file : String)
  | globPattern
  | parsePattern
  | diagnosticError (num : Nat)
  | startLanguageServer
  | openEditor
  | writeFile (file : String)
  | testFail (message : String)

/-- `ErrorContext::exit_code` (error.rs lines 42-52). -/
def ErrorContext.exit_code : ErrorContext → Int
  | .readConfiguration | .readRule _ | .walkRuleDir _ => 2
  | .testFail _ => 3
  | .parseTest _ | .parseRule _ | .parseConfiguration => 5
  | .openEditor => 126
  | .diagnosticError _ => 1
  | _ => 1

/-- The `ErrorContext` branch of `exit_with_error` (error.rs lines 158-165):
when the error downcasts to an `ErrorContext`, the process terminates with
that context's `exit_code`. -/
def exitWithErrorCode (e : ErrorContext) : Int :=
  e.exit_code

/-- Example nodes used as concrete witnesses. -/
def leafNode : Node := Node.mk 0 0 []

def childNode : Node := Node.mk 1 0 []

def parentNode : Node := Node.mk 0 0 [childNode]

/-- The yielded element of one `next` call is the first success of
`match_node` over the remaining cursor. -/
theorem nextLoop_map_fst (m : Matcher) (l : List Node) :
    (nextLoop m l).map Prod.fst = l.findSome? m.matchNode := by
  induction l with
  | nil => rfl
  | cons c rest ih =>
    simp only [nextLoop, List.findSome?]
    cases m.matchNode c with
    | none => simpa using ih
    | some nm => rfl

/-- Repeatedly advancing the iterator from a cursor state enumerates,
position by position, the list of candidates filtered through
`match_node`. -/
theorem advance_filterMap (m : Matcher) (l : List Node) (k : Nat) :
    (FindAllNodes.advance k ⟨l, m⟩).map Prod.fst = (l.filterMap m.matchNode)[k]? := by
  induction l generalizing k with
  | nil =>
    cases k <;>
      simp [FindAllNodes.advance, FindAllNodes.next, nextLoop, List.filterMap]
  | cons c rest ih =>
    cases hm : m.matchNode c with
    | some nm =>
      cases k with
      | zero =>
        simp [FindAllNodes.advance, FindAllNodes.next, nextLoop, hm,
          List.filterMap_cons]
      | succ j =>
        have hnext : FindAllNodes.next ⟨c :: rest, m⟩ =
            some (nm, ⟨rest, m⟩) := by
          simp [FindAllNodes.next, nextLoop, hm]
        simp only [FindAllNodes.advance, hnext, Option.bind_some,
          List.filterMap_cons, hm, List.getElem?_cons_succ]
        exact ih j
    | none =>
      have hnext : FindAllNodes.next ⟨c :: rest, m⟩ = FindAllNodes.next ⟨rest, m⟩ := by
        simp [FindAllNodes.next, nextLoop, hm]
      have hadv : FindAllNodes.advance k ⟨c :: rest, m⟩ =
          FindAllNodes.advance k ⟨rest, m⟩ := by
        cases k with
        | zero => exact hnext
        | succ j => simp only [FindAllNodes.advance, hnext]
      rw [hadv, ih k, List.filterMap_cons, hm]

/-- C3: for a matcher whose `find_node` is the trait default,
`find_node(n)` is the first match of the pre-order depth-first traversal
starting at and including `n`, and it coincides with the first element
yielded by iterating `FindAllNodes` over the same matcher and start
node. -/
theorem find_node_first_match (M : Matcher) (n : Node)
    (h : M.findNode = defaultFindNode M.matchNode) :
    M.findNode n = n.dfs.findSome? M.matchNode ∧
    M.findNode n = ((FindAllNodes.new M n).next).map Prod.fst := by
  constructor
  · rw [h]; rfl
  · rw [h]
    exact (nextLoop_map_fst M n.dfs).symm

/-- C3 witness: the equivalence instantiated at `MatchAll` and a concrete
leaf node. -/
theorem find_node_first_match_witness :
    MatchAll.findNode leafNode = leafNode.dfs.findSome? MatchAll.matchNode ∧
    MatchAll.findNode leafNode = ((FindAllNodes.new MatchAll leafNode).next).map Prod.fst :=
  find_node_first_match MatchAll leafNode rfl

/-- C1 counterexample: with the unconditional matcher `MatchAll` started
at a parent with one child, the first advance yields a match at the
parent and the very next advance yields a match at the child, which is a
proper descendant of the already-matched parent — the traversal does
re-descend into matched subtrees. -/
theorem find_all_nodes_descends_into_match :
    ((FindAllNodes.new MatchAll parentNode).advance 0).map (fun p => p.1.node) =
      some parentNode ∧
    ((FindAllNodes.new MatchAll parentNode).advance 1).map (fun p => p.1.node) =
      some childNode ∧
    properDescendant childNode parentNode := by
  refine ⟨rfl, rfl, ?_⟩
  show childNode ∈ dfsList parentNode.children
  show childNode ∈ [childNode]
  exact List.mem_singleton_self childNode

/-- C1 (amended): the lazy search is a single forward pass that offers
each node of the pre-order traversal exactly once — the match yielded by
the `(k+1)`-st advance is exactly the `(k+1)`-st element of the start
node's pre-order dfs filtered through `match_node`; descendants of an
already-matched node remain candidates and may be yielded by later
advances. -/
theorem find_all_nodes_single_forward_pass (M : Matcher) (n : Node) (k : Nat) :
    ((FindAllNodes.new M n).advance k).map Prod.fst =
      (n.dfs.filterMap M.matchNode)[k]? :=
  advance_filterMap M n.dfs k

/-- C2: every matcher defined in the module prunes soundly — a reported
kind set that excludes a node's kind id forces the match to fail.
`MatchAll` reports no kind set, `MatchNone` rejects every node, and the
two delegating adapters preserve pruning soundness of their inner
matcher. -/
theorem module_matchers_prune_soundly :
    PruneSound MatchAll ∧ PruneSound MatchNone ∧
    (∀ M : Matcher, PruneSound M → PruneSound (refMatcher M)) ∧
    (∀ M : Matcher, PruneSound M → PruneSound (boxMatcher M)) := by
  refine ⟨?_, ?_, ?_, ?_⟩
  · intro n env s hs _
    exact Option.noConfusion hs
  · intro n env s _ _
    rfl
  · intro M h n env s hs hn
    exact h n env s hs hn
  · intro M h n env s hs hn
    exact h n env s hs hn

/-- C2 witness: pruning soundness applied at `MatchNone` (whose kind set
is the empty set, excluding the concrete leaf node's kind id) and at the
two adapters wrapping it. -/
theorem module_matchers_prune_soundly_witness :
    (MatchNone.matchNodeWithEnv leafNode MetaVarEnv.new).1 = none ∧
    ((refMatcher MatchNone).matchNodeWithEnv leafNode MetaVarEnv.new).1 = none ∧
    ((boxMatcher MatchNone).matchNodeWithEnv leafNode MetaVarEnv.new).1 = none :=
  ⟨module_matchers_prune_soundly.2.1 leafNode MetaVarEnv.new ∅ rfl
      (Finset.not_mem_empty _),
   module_matchers_prune_soundly.2.2.1 MatchNone module_matchers_prune_soundly.2.1
      leafNode MetaVarEnv.new ∅ rfl (Finset.not_mem_empty _),
   module_matchers_prune_soundly.2.2.2 MatchNone module_matchers_prune_soundly.2.1
      leafNode MetaVarEnv.new ∅ rfl (Finset.not_mem_empty _)⟩

/-- C4: at match time only two outcomes exist — a matched node with the
environment as updated by the call, or no match; and for every matcher of
the module a failing match leaves the environment exactly as it was (the
adapters and the string matcher preserve rollback of the matcher they
delegate to). -/
theorem match_time_outcomes :
    (∀ (M : Matcher) (n : Node) (env : MetaVarEnv),
      (∃ m env2, M.matchNodeWithEnv n env = (some m, env2)) ∨
      (∃ env2, M.matchNodeWithEnv n env = (none, env2))) ∧
    RollbackOnFailure MatchAll ∧ RollbackOnFailure MatchNone ∧
    (∀ M : Matcher, RollbackOnFailure M → RollbackOnFailure (refMatcher M)) ∧
    (∀ M : Matcher, RollbackOnFailure M → RollbackOnFailure (boxMatcher M)) ∧
    (∀ (P : PatternSem) (s : String),
      (∀ l : Lang, RollbackOnFailure (patternMatcher P s l)) →
      RollbackOnFailure (strMatcher P s)) := by
  refine ⟨?_, ?_, ?_, ?_, ?_, ?_⟩
  · intro M n env
    cases hr : M.matchNodeWithEnv n env with
    | mk fst snd =>
      cases fst with
      | some m => exact Or.inl ⟨m, snd, rfl⟩
      | none => exact Or.inr ⟨snd, rfl⟩
  · intro n env h
    exact Option.noConfusion h
  · intro n env _
    rfl
  · intro M h
    exact h
  · intro M h
    exact h
  · intro P s h n env hfail
    exact h n.lang n env hfail

/-- C4 witness: rollback applied to the failing `MatchNone` and to the two
adapters wrapping it, at a concrete node and the fresh environment. -/
theorem match_time_outcomes_witness :
    (MatchNone.matchNodeWithEnv leafNode MetaVarEnv.new).2 = MetaVarEnv.new ∧
    ((refMatcher MatchNone).matchNodeWithEnv leafNode MetaVarEnv.new).2 = MetaVarEnv.new ∧
    ((boxMatcher MatchNone).matchNodeWithEnv leafNode MetaVarEnv.new).2 = MetaVarEnv.new :=
  ⟨match_time_outcomes.2.2.1 leafNode MetaVarEnv.new rfl,
   match_time_outcomes.2.2.2.1 MatchNone match_time_outcomes.2.2.1
      leafNode MetaVarEnv.new rfl,
   match_time_outcomes.2.2.2.2.1 MatchNone match_time_outcomes.2.2.1
      leafNode MetaVarEnv.new rfl⟩

/-- C5: the borrowed-reference adapter and the owned type-erased adapter
are pure delegation — each of the five trait methods on the wrapper
returns exactly what the same call on the inner matcher returns. -/
theorem adapters_pure_delegation (M : Matcher) (n : Node) (env : MetaVarEnv) :
    (refMatcher M).matchNodeWithEnv n env = M.matchNodeWithEnv n env ∧
    (refMatcher M).potentialKinds = M.potentialKinds ∧
    (refMatcher M).getMatchLen n = M.getMatchLen n ∧
    (refMatcher M).matchNode n = M.matchNode n ∧
    (refMatcher M).findNode n = M.findNode n ∧
    (boxMatcher M).matchNodeWithEnv n env = M.matchNodeWithEnv n env ∧
    (boxMatcher M).potentialKinds = M.potentialKinds ∧
    (boxMatcher M).getMatchLen n = M.getMatchLen n ∧
    (boxMatcher M).matchNode n = M.matchNode n ∧
    (boxMatcher M).findNode n = M.findNode n :=
  ⟨rfl, rfl, rfl, rfl, rfl, rfl, rfl, rfl, rfl, rfl⟩

/-- C6: a bare string used as a matcher behaves identically to the pattern
compiled from that string with the candidate node's own language, for
`match_node_with_env` and `get_match_len`, whatever the semantics of the
external `Pattern` module. -/
theorem str_matcher_is_lazy_pattern (P : PatternSem) (s : String) (n : Node)
    (env : MetaVarEnv) :
    (strMatcher P s).matchNodeWithEnv n env =
      (patternMatcher P s n.lang).matchNodeWithEnv n env ∧
    (strMatcher P s).getMatchLen n = (patternMatcher P s n.lang).getMatchLen n :=
  ⟨rfl, rfl⟩

/-- C7: `MatchAll` matches every node unconditionally, returning the node
itself and leaving the environment unchanged, and reports no pruning
information. -/
theorem match_all_matches_everything (n : Node) (env : MetaVarEnv) :
    MatchAll.matchNodeWithEnv n env = (some n, env) ∧
    MatchAll.potentialKinds = none :=
  ⟨rfl, rfl⟩

/-- C8: `MatchNone` matches nothing, leaving the environment unchanged,
and reports the empty kind set. -/
theorem match_none_matches_nothing (n : Node) (env : MetaVarEnv) :
    MatchNone.matchNodeWithEnv n env = (none, env) ∧
    MatchNone.potentialKinds = some (∅ : Finset Nat) :=
  ⟨rfl, rfl⟩

/-- C9: for a matcher whose `match_node` is the trait default,
`match_node(n)` fails exactly when `match_node_with_env` on a freshly
created environment fails, and on success wraps the returned node with
that environment into a `NodeMatch`. -/
theorem match_node_uses_fresh_env (M : Matcher) (n : Node)
    (h : M.matchNode = defaultMatchNode M.matchNodeWithEnv) :
    (M.matchNode n = none ↔ (M.matchNodeWithEnv n MetaVarEnv.new).1 = none) ∧
    (∀ (m : Node) (env : MetaVarEnv),
      M.matchNodeWithEnv n MetaVarEnv.new = (some m, env) →
      M.matchNode n = some (NodeMatch.mk m env)) := by
  rw [h]
  constructor
  · cases hr : M.matchNodeWithEnv n MetaVarEnv.new with
    | mk fst snd => cases fst <;> simp [defaultMatchNode, hr]
  · intro m env hm
    simp [defaultMatchNode, hm]

/-- C9 witness: the fresh-environment equivalence instantiated at
`MatchAll` and a concrete leaf node. -/
theorem match_node_uses_fresh_env_witness :
    (MatchAll.matchNode leafNode = none ↔
      (MatchAll.matchNodeWithEnv leafNode MetaVarEnv.new).1 = none) ∧
    (∀ (m : Node) (env : MetaVarEnv),
      MatchAll.matchNodeWithEnv leafNode MetaVarEnv.new = (some m, env) →
      MatchAll.matchNode leafNode = some (NodeMatch.mk m env)) :=
  match_node_uses_fresh_env MatchAll leafNode rfl

/-- C10: every `ErrorContext` exit code is one of 1, 2, 3, 5 or 126, so a
CLI run that terminates through `exit_with_error` with an `ErrorContext`
never exits with the success status 0. -/
theorem error_exit_codes_nonzero (e : ErrorContext) :
    exitWithErrorCode e ≠ 0 ∧
    (exitWithErrorCode e = 1 ∨ exitWithErrorCode e = 2 ∨ exitWithErrorCode e = 3 ∨
     exitWithErrorCode e = 5 ∨ exitWithErrorCode e = 126) := by
  cases e <;> simp [exitWithErrorCode, ErrorContext.exit_code]

